import Mathlib

/-!
Verification development for the FlowFixer VS Code extension
(DanielChahine0/visualDebugger).

The development shallowly embeds the two event-correlation components of
the repository — the Error Detector (`errorListener.ts`) and the Fix/Diff
Detector (`diffEngine.ts`) — together with the shared code-context utility
(`extension/src/utils.ts`, function `extractCodeContext`).

`extractCodeContext` is translated directly from the source.  The two
detector classes themselves are not shipped in the source tree (only their
unit-test suites, the `types.ts` declarations and the `extension.ts` caller
are), so their models are written from the specification, adjusted where
the in-repo unit tests pin down concrete behaviour; each such definition
carries a doc comment saying so.

JavaScript strings are modelled as Lean `String`, JavaScript numbers that
hold integers as `Int` or `Nat`, timestamps (ms) as `Int`, and the
single-threaded event-loop with debounce timers as an explicit step
function over an event type, with time advanced by explicit `elapse`
events (vitest fake timers in the repository's tests play the same role).
-/

namespace FlowFixer

/-- A VS Code `TextDocument` as the detectors see it: a file path
(`uri.fsPath`), a language identifier and the full current text
(`getText()`).  Mirrors the mock documents of `__tests__/helpers.ts`. -/
structure Document where
  path : String
  languageId : String
  text : String
deriving DecidableEq, Repr

/-- A VS Code `Diagnostic` restricted to the fields the detectors read:
0-indexed start line (`range.start.line`), message, and numeric severity
(0 = Error, 1 = Warning, 2 = Information, 3 = Hint). -/
structure Diagnostic where
  startLine : Nat
  message : String
  severity : Nat
deriving DecidableEq, Repr

/-- `CapturedError` from `types.ts`: message, file path, 1-indexed line,
language id, numbered code context, severity string, source channel
(the type declares `"diagnostics" | "terminal"`), timestamp (ms). -/
structure CapturedError where
  message : String
  file : String
  line : Nat
  language : String
  codeContext : String
  severity : String
  source : String
  timestamp : Int
deriving DecidableEq, Repr

/-- `CapturedDiff` from `types.ts`: file, language, before/after content,
unified diff text and timestamp (ms). -/
structure CapturedDiff where
  file : String
  language : String
  beforeContent : String
  afterContent : String
  unifiedDiff : String
  timestamp : Int
deriving DecidableEq, Repr

/-! ## JavaScript array-slice semantics

`Array.prototype.slice(start, end)` resolves a relative index `i` against
the array length: a negative `i` becomes `max(length + i, 0)`, a
non-negative one becomes `min(i, length)`; the result is the elements from
the resolved start (inclusive) to the resolved end (exclusive). -/

/-- `s.split(sep)` of JavaScript for a one-character separator, over the
character list: split on every occurrence, never dropping trailing
empties, with `"" → [""]`.  (Structurally recursive so that concrete
instances reduce; Lean's own `String.splitOn` agrees but is defined by
well-founded recursion.) -/
def splitCharList (sep : Char) : List Char → List String
  | [] => [""]
  | c :: rest =>
    let r := splitCharList sep rest
    if c = sep then "" :: r
    else
      match r with
      | [] => [String.mk [c]]
      | h :: t => String.mk (c :: h.data) :: t

/-- `s.split(sep)` of JavaScript for a one-character separator. -/
def jsSplitOn (sep : Char) (s : String) : List String :=
  splitCharList sep s.data

/-- `text.split("\n")` of JavaScript. -/
def jsSplitLines (text : String) : List String :=
  jsSplitOn '\n' text

/-- `pre` is a leading substring of `s` (JavaScript `s.startsWith(pre)`),
computed over the character lists. -/
def strStartsWith (s pre : String) : Bool :=
  pre.data.isPrefixOf s.data

/-- Parse a non-empty all-digit character list as a decimal number
(the success cases of JavaScript `parseInt` on a `\d+` capture). -/
def digitsToNat? : List Char → Option Nat
  | [] => none
  | cs => go cs 0
where
  go : List Char → Nat → Option Nat
    | [], acc => some acc
    | c :: rest, acc =>
      if c.isDigit then go rest (acc * 10 + (c.toNat - 48)) else none

/-- Resolve one relative index of `Array.prototype.slice` against `len`.
`Int.toNat` clamps negatives to `0`, matching `max(len + i, 0)`. -/
def jsSliceIdx (len : Nat) (i : Int) : Nat :=
  if i < 0 then ((len : Int) + i).toNat else min i.toNat len

/-- `xs.slice(s, e)` of JavaScript. -/
def jsSlice {α : Type} (xs : List α) (s e : Int) : List α :=
  (xs.take (jsSliceIdx xs.length e)).drop (jsSliceIdx xs.length s)

/-- The numbering `map` of `extractCodeContext`: render each line `l` at
successive numbers `k, k+1, ...` as `"k | l"` (the source maps index `i`
of the slice to number `start + i + 1`; here `k = start + 1`). -/
def numberFrom (k : Int) : List String → List String
  | [] => []
  | l :: rest => (toString k ++ " | " ++ l) :: numberFrom (k + 1) rest

/-- The slice-and-render stage of `extractCodeContext` (everything before
the final `join("\n")`), kept as a named definition so theorems can speak
about the number of rendered lines. -/
def extractCodeContextLines (text : String) (line : Int) : List String :=
  let lines := jsSplitLines text
  let start := max 0 (line - 11)
  let stop := min (lines.length : Int) (line + 10)
  numberFrom (start + 1) (jsSlice lines start stop)

/-- `extractCodeContext` translated from `extension/src/utils.ts`:

    const lines = text.split("\n");
    const start = Math.max(0, line - 11);
    const end = Math.min(lines.length, line + 10);
    return lines.slice(start, end)
      .map((l, i) => `(start + i + 1) | (l)`)
      .join("\n");
-/
def extractCodeContext (text : String) (line : Int) : String :=
  String.intercalate "\n" (extractCodeContextLines text line)

/-- The code-context algorithm as the specification words it: window =
`lines[max(0, L-11) .. min(lineCount, L+10))` taken with plain `Nat`
drop/take (no JavaScript relative-index resolution), each line rendered
as `"<1-indexed-number> | <text>"`, joined with newlines. -/
def extractCodeContextSpec (text : String) (line : Int) : String :=
  let lines := jsSplitLines text
  let start := (max 0 (line - 11)).toNat
  let stop := min lines.length (line + 10).toNat
  String.intercalate "\n" (numberFrom ((start : Int) + 1) ((lines.drop start).take (stop - start)))

/-! ## Error Detector (`errorListener.ts`)

The implementation file is not in the source tree; the model below is
written from the specification (sections 4.1, dedup window, code-context
algorithm, failure semantics) and pinned to the behaviour the in-repo
unit-test suite of `ErrorListener` asserts (severity filter, language
filter, `line = start line + 1`, the 2000 ms dedup ledger keyed by
`file:line:message` with lazy eviction, and the terminal path emitting
`source = "terminal"`, `file = "unknown"` when resolution fails). -/

/-- Modelled from the spec: the supported source languages of the Error
Detector (the detector targets JS/TS/JSX/TSX; other languages are
silently ignored). -/
def supportedLanguages : List String :=
  ["javascript", "typescript", "javascriptreact", "typescriptreact"]

/-- Modelled from the spec: the fixed 2-second deduplication cooldown. -/
def DEDUP_WINDOW_MS : Int := 2000

/-- Modelled from the spec: the host environment the Error Detector reads:
open text documents, the current diagnostic list per file, the ordered
workspace roots, a file-existence check and asynchronous document opening
(modelled as an immediate lookup). -/
structure ListenerEnv where
  textDocuments : List Document
  diagnosticsOf : String → List Diagnostic
  workspaceRoots : List String
  fileExists : String → Bool
  openDocument : String → Option Document

/-- Modelled from the spec: the Error Detector's only mutable state, the
deduplication ledger `recentErrors` mapping keys to the timestamp of the
last emission for that key. -/
structure ListenerState where
  recentErrors : List (String × Int)
deriving DecidableEq, Repr

/-- The fresh Error Detector state: an empty ledger. -/
def initListenerState : ListenerState := ⟨[]⟩

/-- Modelled from the spec: the dedup key derived from file, 1-indexed
line and message (the test suite calls this shape `file:line:message`). -/
def errorKey (file : String) (line : Nat) (message : String) : String :=
  file ++ ":" ++ toString line ++ ":" ++ message

/-- Modelled from the spec: lazy eviction — keep only ledger entries
younger than the cooldown window at time `now`. -/
def pruneLedger (now : Int) (ledger : List (String × Int)) : List (String × Int) :=
  ledger.filter (fun kv => now - kv.2 < DEDUP_WINDOW_MS)

/-- Modelled from the spec: the duplicate check.  Stale entries are
evicted as a side effect; if a non-stale entry for the key remains the
occurrence is a duplicate, otherwise the key is recorded at `now`. -/
def isDuplicate (now : Int) (key : String) (st : ListenerState) :
    Bool × ListenerState :=
  let cleaned := pruneLedger now st.recentErrors
  if cleaned.any (fun kv => kv.1 == key) then (true, ⟨cleaned⟩)
  else (false, ⟨(key, now) :: cleaned⟩)

/-- Modelled from the spec: fire the outbound event unless the dedup
ledger suppresses it. -/
def emitIfFresh (now : Int) (e : CapturedError) (st : ListenerState) :
    List CapturedError × ListenerState :=
  let r := isDuplicate now (errorKey e.file e.line e.message) st
  if r.1 then ([], r.2) else ([e], r.2)

/-- Modelled from the spec: build a `CapturedError` from a severity-error
diagnostic of an open document — `line` is the diagnostic's 0-indexed
start line plus one, `codeContext` the ±10-line window around it,
`source` is `"diagnostics"`. -/
def captureFromDiagnostic (doc : Document) (now : Int) (d : Diagnostic) :
    CapturedError :=
  let lineN := d.startLine + 1
  { message := d.message
    file := doc.path
    line := lineN
    language := doc.languageId
    codeContext := extractCodeContext doc.text (lineN : Int)
    severity := "error"
    source := "diagnostics"
    timestamp := now }

/-- Modelled from the spec: process the severity-error diagnostics of one
open, supported document in order, threading the dedup ledger. -/
def processDiags (doc : Document) (now : Int) :
    List Diagnostic → ListenerState → List CapturedError × ListenerState
  | [], st => ([], st)
  | d :: rest, st =>
    let r1 := emitIfFresh now (captureFromDiagnostic doc now d) st
    let r2 := processDiags doc now rest r1.2
    (r1.1 ++ r2.1, r2.2)

/-- Modelled from the spec: handle one file of a diagnostic-change
notification — skip it unless an open document with that path exists and
its language is supported, then classify its severity-error diagnostics. -/
def processUri (env : ListenerEnv) (now : Int) (uri : String)
    (st : ListenerState) : List CapturedError × ListenerState :=
  match env.textDocuments.find? (fun d => d.path == uri) with
  | none => ([], st)
  | some doc =>
    if supportedLanguages.contains doc.languageId then
      processDiags doc now ((env.diagnosticsOf uri).filter (fun d => d.severity == 0)) st
    else ([], st)

/-- Modelled from the spec: process the files of one diagnostic-change
notification in order. -/
def processUris (env : ListenerEnv) (now : Int) :
    List String → ListenerState → List CapturedError × ListenerState
  | [], st => ([], st)
  | u :: rest, st =>
    let r1 := processUri env now u st
    let r2 := processUris env now rest r1.2
    (r1.1 ++ r2.1, r2.2)

/-- Modelled from the spec: the diagnostics path of the Error Detector —
one `onDidChangeDiagnostics` notification carrying a list of file paths. -/
def handleDiagnosticsChange (env : ListenerEnv) (now : Int)
    (uris : List String) (st : ListenerState) :
    List CapturedError × ListenerState :=
  processUris env now uris st

/-! ### Log-output path -/

/-- Modelled from the spec: the well-known uncaught-exception kinds the
log-output matchers look for. -/
def errorKinds : List String :=
  ["TypeError", "ReferenceError", "SyntaxError", "RangeError", "EvalError"]

/-- Modelled from the spec: does a log line match the shape
`<ErrorKind>: <message>`? -/
def matchErrorLine (line : String) : Bool :=
  errorKinds.any (fun k => strStartsWith line (k ++ ": "))

/-- The text between the first opening parenthesis of a stack-frame line
and the next closing one, if any. -/
def frameTarget (line : String) : Option String :=
  match jsSplitOn '(' line with
  | _ :: r :: rs =>
    match jsSplitOn ')' (String.intercalate "(" (r :: rs)) with
    | inner :: _ => some inner
    | [] => none
  | _ => none

/-- Modelled from the spec: parse a stack-frame line of the shape
`at ... (<file>:<line>:<col>)`, returning the raw path and 1-indexed line. -/
def parseFrame (line : String) : Option (String × Nat) :=
  if (String.mk (line.data.dropWhile Char.isWhitespace)).data.take 3 = "at ".data then
    match frameTarget line with
    | none => none
    | some inner =>
      match (jsSplitOn ':' inner).reverse with
      | _col :: lnStr :: fileRev =>
        match digitsToNat? lnStr.data with
        | some n => some (String.intercalate ":" fileRev.reverse, n)
        | none => none
      | _ => none
  else none

/-- The first line of the chunk matching an error pattern, with the
remaining lines (searched afterwards for a stack frame). -/
def findErrorLine : List String → Option (String × List String)
  | [] => none
  | l :: rest =>
    if matchErrorLine l then some (l, rest) else findErrorLine rest

/-- The first parsable stack frame among the lines after the error line. -/
def findFrame : List String → Option (String × Nat)
  | [] => none
  | l :: rest =>
    match parseFrame l with
    | some fr => some fr
    | none => findFrame rest

/-- Modelled from the spec: resolve a raw stack-frame path — the path as
given if absolute and existing, else the first workspace-root join that
exists. -/
def resolveFile (env : ListenerEnv) (raw : String) : Option String :=
  if strStartsWith raw "/" ∧ env.fileExists raw then some raw
  else (env.workspaceRoots.map (fun root => root ++ "/" ++ raw)).find? env.fileExists

/-- Modelled from the spec: the log-output path of the Error Detector.
If no matcher matches, the chunk is ignored.  On a match, the stack frame
(when present) is resolved; on resolution failure the event is still
emitted with `file = "unknown"` and no code context (the `CapturedError`
type of `types.ts` declares the channel value as `"terminal"`).  The same
dedup ledger as the diagnostics path applies. -/
def handleTerminalOutput (env : ListenerEnv) (now : Int) (text : String)
    (st : ListenerState) : List CapturedError × ListenerState :=
  match findErrorLine (jsSplitLines text) with
  | none => ([], st)
  | some (msg, rest) =>
    let e : CapturedError :=
      match findFrame rest with
      | none =>
        { message := msg, file := "unknown", line := 0, language := "unknown"
          codeContext := "", severity := "error", source := "terminal", timestamp := now }
      | some (raw, ln) =>
        match resolveFile env raw with
        | none =>
          { message := msg, file := "unknown", line := ln, language := "unknown"
            codeContext := "", severity := "error", source := "terminal", timestamp := now }
        | some p =>
          match env.openDocument p with
          | some doc =>
            { message := msg, file := p, line := ln, language := doc.languageId
              codeContext := extractCodeContext doc.text (ln : Int)
              severity := "error", source := "terminal", timestamp := now }
          | none =>
            { message := msg, file := p, line := ln, language := "unknown"
              codeContext := "", severity := "error", source := "terminal", timestamp := now }
    emitIfFresh now e st

/-! ## Fix/Diff Detector (`diffEngine.ts`)

The implementation file is not in the source tree; the model below is
written from the specification (section 4.2: `startTracking`,
`stopTracking`, the save, diagnostics and content-change paths, the
cross-path arbitration rule) and pinned to the behaviour the in-repo
`DiffEngine` unit-test suite asserts.  One place where the tests override
the spec's wording: the tests set the diagnostics-path debounce timer when
the severity-error count reaches zero even though `initialErrorCount` was
already zero (tests "debounce timer is set when errors clear on tracked
file", "multiple diagnostic changes within debounce window only fire
once", "opens file via openTextDocument if not in textDocuments when
errors clear" all start with zero initial errors and expect the timer to
run), so the scheduling condition modelled is
`newCount = 0 ∨ newCount < initialErrorCount`. -/

/-- Modelled from the spec: the host environment the Fix/Diff Detector
reads — open documents, asynchronous opening from disk (modelled as an
immediate lookup), and the current severity-error diagnostic count per
file. -/
structure DiffEnv where
  textDocuments : List Document
  openFile : String → Option Document
  errorCount : String → Nat

/-- Modelled from the spec: the tracking-session state owned by the
Fix/Diff Detector, plus the model's explicit clock.  `diagTimer` and
`contentTimer` hold the absolute deadline (ms) of the pending 500 ms
diagnostics debounce and 1500 ms content debounce, or `none`. -/
structure DiffEngineState where
  now : Int
  trackedFile : Option String
  beforeContent : Option String
  initialErrorCount : Nat
  diagTimer : Option Int
  contentTimer : Option Int
deriving DecidableEq, Repr

/-- The fresh Fix/Diff Detector state at time zero: no session, no timers. -/
def initDiffState : DiffEngineState :=
  { now := 0, trackedFile := none, beforeContent := none
    initialErrorCount := 0, diagTimer := none, contentTimer := none }

/-- Resolve a document for a path: the open-document list first, else the
(asynchronous) disk open. -/
def resolveDoc (env : DiffEnv) (file : String) : Option Document :=
  match env.textDocuments.find? (fun d => d.path == file) with
  | some d => some d
  | none => env.openFile file

/-- The text of the resolved document, if any. -/
def resolveText (env : DiffEnv) (file : String) : Option String :=
  (resolveDoc env file).map Document.text

/-- Stands in for the external `diff` library's `createPatch`: a textual
patch of before → after.  Its content is irrelevant to every claim; only
that it is attached to the emitted `CapturedDiff`. -/
def createPatch (file before after : String) : String :=
  "--- " ++ file ++ "\n+++ " ++ file ++ "\n- " ++ before ++ "\n+ " ++ after

/-- Build the emitted `CapturedDiff`. -/
def mkDiff (file language before after : String) (now : Int) : CapturedDiff :=
  { file := file, language := language, beforeContent := before
    afterContent := after, unifiedDiff := createPatch file before after
    timestamp := now }

/-- Modelled from the spec: `stopTracking()` clears the session, cancels
any pending timer and clears the before-snapshot. -/
def stopTracking (st : DiffEngineState) : DiffEngineState :=
  { st with trackedFile := none, beforeContent := none
            diagTimer := none, contentTimer := none }

/-- Modelled from the spec: `startTracking(file)` — a log-only no-op when
a session for a different file is active; a session restart (fresh
snapshot, fresh initial error count, timers reset) when the same file is
already tracked; otherwise a new session.  The snapshot is the current
content from the open-document list if present, else the disk content. -/
def startTracking (env : DiffEnv) (file : String) (st : DiffEngineState) :
    DiffEngineState :=
  match st.trackedFile with
  | some f =>
    if f = file then
      { st with beforeContent := resolveText env file
                initialErrorCount := env.errorCount file
                diagTimer := none, contentTimer := none }
    else st
  | none =>
    { st with trackedFile := some file
              beforeContent := resolveText env file
              initialErrorCount := env.errorCount file
              diagTimer := none, contentTimer := none }

/-- Modelled from the spec: the shared debounce computation of the
diagnostics and content-change paths — resolve the current content; if it
differs from the before-snapshot, emit the diff and stop tracking
(cancelling the other pending timer with the session); otherwise leave
the session untouched for a later real change. -/
def computeDiffForTrackedFile (env : DiffEnv) (st : DiffEngineState) :
    List CapturedDiff × DiffEngineState :=
  match st.trackedFile, st.beforeContent with
  | some f, some b =>
    match resolveDoc env f with
    | some doc =>
      if doc.text = b then ([], st)
      else ([mkDiff f doc.languageId b doc.text st.now], stopTracking st)
    | none => ([], st)
  | _, _ => ([], st)

/-- Fire the diagnostics-path debounce: the timer is consumed, then the
shared computation runs. -/
def fireDiag (env : DiffEnv) (st : DiffEngineState) :
    List CapturedDiff × DiffEngineState :=
  computeDiffForTrackedFile env { st with diagTimer := none }

/-- Fire the content-path debounce: the timer is consumed, then the
shared computation runs. -/
def fireContent (env : DiffEnv) (st : DiffEngineState) :
    List CapturedDiff × DiffEngineState :=
  computeDiffForTrackedFile env { st with contentTimer := none }

/-- Is the diagnostics-path timer pending and due? -/
def diagDue (st : DiffEngineState) : Bool :=
  match st.diagTimer with
  | some d => decide (d ≤ st.now)
  | none => false

/-- Is the content-path timer pending and due? -/
def contentDue (st : DiffEngineState) : Bool :=
  match st.contentTimer with
  | some c => decide (c ≤ st.now)
  | none => false

/-- Fire every due debounce timer, earliest deadline first (the
single-threaded event loop runs expired callbacks in deadline order).  A
callback that emits stops tracking, which also cancels the other pending
timer, so the second callback never runs after an emission. -/
def fireDue (env : DiffEnv) (st : DiffEngineState) :
    List CapturedDiff × DiffEngineState :=
  match st.diagTimer, st.contentTimer with
  | some d, some c =>
    if d ≤ st.now then
      if c ≤ st.now ∧ c < d then
        let r1 := fireContent env st
        let r2 := if diagDue r1.2 then fireDiag env r1.2 else ([], r1.2)
        (r1.1 ++ r2.1, r2.2)
      else
        let r1 := fireDiag env st
        let r2 := if contentDue r1.2 then fireContent env r1.2 else ([], r1.2)
        (r1.1 ++ r2.1, r2.2)
    else if c ≤ st.now then fireContent env st
    else ([], st)
  | some d, none => if d ≤ st.now then fireDiag env st else ([], st)
  | none, some c => if c ≤ st.now then fireContent env st else ([], st)
  | none, none => ([], st)

/-- The inbound signals of the Fix/Diff Detector, plus the two public
methods and the passage of time.  `contentChange` carries the length of
the `contentChanges` array (the save and change notifications carry the
document handle of the moment). -/
inductive DiffEvent where
  | start (file : String)
  | stop
  | willSave (doc : Document)
  | didSave (doc : Document)
  | diagChange (uris : List String)
  | contentChange (doc : Document) (changes : Nat)
  | elapse (dt : Int)
deriving DecidableEq, Repr

/-- Is the event a `startTracking` call? -/
def DiffEvent.isStart : DiffEvent → Bool
  | .start _ => true
  | _ => false

/-- Modelled from the spec: one step of the Fix/Diff Detector.  The save
path emits immediately on a did-save with differing content and stops
tracking; the diagnostics path (re)schedules the 500 ms debounce when the
severity-error count reaches zero or drops below `initialErrorCount`; the
content path (re)schedules the 1500 ms debounce on a non-empty change of
the tracked file; `elapse` advances the clock and runs expired debounce
callbacks. -/
def step (env : DiffEnv) (ev : DiffEvent) (st : DiffEngineState) :
    List CapturedDiff × DiffEngineState :=
  match ev with
  | .start file => ([], startTracking env file st)
  | .stop => ([], stopTracking st)
  | .willSave doc =>
    if st.trackedFile = some doc.path then
      ([], { st with beforeContent := some doc.text })
    else ([], st)
  | .didSave doc =>
    match st.trackedFile, st.beforeContent with
    | some f, some b =>
      if f = doc.path then
        if doc.text = b then ([], st)
        else ([mkDiff f doc.languageId b doc.text st.now], stopTracking st)
      else ([], st)
    | _, _ => ([], st)
  | .diagChange uris =>
    match st.trackedFile with
    | some f =>
      if uris.contains f then
        let newCount := env.errorCount f
        if newCount = 0 ∨ newCount < st.initialErrorCount then
          ([], { st with diagTimer := some (st.now + 500) })
        else ([], st)
      else ([], st)
    | none => ([], st)
  | .contentChange doc changes =>
    match st.trackedFile with
    | some f =>
      if f = doc.path ∧ changes ≠ 0 then
        ([], { st with contentTimer := some (st.now + 1500) })
      else ([], st)
    | none => ([], st)
  | .elapse dt => fireDue env { st with now := st.now + dt }

/-- A run of the Fix/Diff Detector over a list of events, each paired with
the host environment current at that moment (the tests mutate the mocked
environment between signals the same way), collecting every emission. -/
def run : List (DiffEnv × DiffEvent) → DiffEngineState →
    List CapturedDiff × DiffEngineState
  | [], st => ([], st)
  | (env, ev) :: rest, st =>
    let r1 := step env ev st
    let r2 := run rest r1.2
    (r1.1 ++ r2.1, r2.2)

/-- The session-cleared predicate of the arbitration rule: no tracked
file and no pending debounce timer of either path. -/
def sessionCleared (st : DiffEngineState) : Prop :=
  st.trackedFile = none ∧ st.diagTimer = none ∧ st.contentTimer = none

/-! ## Lemmas about the code-context window -/

theorem numberFrom_length (k : Int) (xs : List String) :
    (numberFrom k xs).length = xs.length := by
  induction xs generalizing k with
  | nil => rfl
  | cons x xs ih => simp [numberFrom, ih]

theorem mem_numberFrom (k : Int) (xs : List String) (i : Nat) (h : i < xs.length) :
    (toString (k + i) ++ " | " ++ xs.getD i "") ∈ numberFrom k xs := by
  induction xs generalizing k i with
  | nil => simp at h
  | cons x xs ih =>
    cases i with
    | zero => simp [numberFrom]
    | succ j =>
      have hj : j < xs.length := by simpa using h
      have hmem := ih (k + 1) j hj
      have hcast : k + ((j + 1 : Nat) : Int) = (k + 1) + (j : Int) := by push_cast; ring
      simp only [numberFrom, List.mem_cons, List.getD_cons_succ, hcast]
      exact Or.inr hmem

theorem getD_drop (l : List String) (a i : Nat) (d : String) :
    (l.drop a).getD i d = l.getD (a + i) d := by
  simp [List.getD_eq_getElem?_getD, List.getElem?_drop]

theorem getD_take (l : List String) (n i : Nat) (d : String) (h : i < n) :
    (l.take n).getD i d = l.getD i d := by
  simp [List.getD_eq_getElem?_getD, List.getElem?_take, h]

/-- The rendered window of `extractCodeContext` in `Nat` drop/take form,
for a 1-or-greater center line. -/
theorem extractCodeContextLines_eq (text : String) (L : Int) (hL : 1 ≤ L) :
    extractCodeContextLines text L =
      numberFrom (((max 0 (L - 11)).toNat : Int) + 1)
        (((jsSplitLines text).drop (max 0 (L - 11)).toNat).take
          ((min ((jsSplitLines text).length : Int) (L + 10)).toNat
            - (max 0 (L - 11)).toNat)) := by
  have hK : ((max 0 (L - 11)).toNat : Int) = max 0 (L - 11) := by omega
  simp only [extractCodeContextLines, jsSlice, jsSliceIdx, hK]
  set lines := jsSplitLines text with hlines
  set len := lines.length with hlen
  have ha : ¬ (max 0 (L - 11) < 0) := by omega
  have hb : ¬ (min (len : Int) (L + 10) < 0) := by omega
  rw [if_neg hb, if_neg ha]
  congr 1
  have hbN : min (min (len : Int) (L + 10)).toNat len
      = (min (len : Int) (L + 10)).toNat := by omega
  rw [hbN]
  by_cases hc : (max 0 (L - 11)).toNat ≤ len
  · rw [min_eq_left hc, List.drop_take]
  · have h1 : min (max 0 (L - 11)).toNat len = len := by omega
    rw [h1]
    have h2 : (lines.take (min (len : Int) (L + 10)).toNat).length ≤ len := by
      simp [hlen]
    have h3 : len ≤ (max 0 (L - 11)).toNat := by omega
    rw [List.drop_eq_nil_of_le h2, List.drop_eq_nil_of_le (by omega : lines.length ≤ (max 0 (L - 11)).toNat)]
    simp

/-- The rendered window never holds more than 21 lines. -/
theorem extractCodeContextLines_length_le (text : String) (L : Int) (hL : 1 ≤ L) :
    (extractCodeContextLines text L).length ≤ 21 := by
  rw [extractCodeContextLines_eq text L hL, numberFrom_length]
  simp only [List.length_take, List.length_drop]
  omega

/-- The rendered window contains the center line when it is in range. -/
theorem extractCodeContextLines_center_mem (text : String) (L : Int) (hL : 1 ≤ L)
    (hle : L ≤ ((jsSplitLines text).length : Int)) :
    (toString L ++ " | " ++ (jsSplitLines text).getD (L - 1).toNat "")
      ∈ extractCodeContextLines text L := by
  rw [extractCodeContextLines_eq text L hL]
  set lines := jsSplitLines text with hlines
  set aN := (max 0 (L - 11)).toNat with haN
  set bN := (min (lines.length : Int) (L + 10)).toNat with hbN
  set w := (lines.drop aN).take (bN - aN) with hw
  have haL : aN ≤ (L - 1).toNat := by omega
  have hbL : (L - 1).toNat < bN := by omega
  have hwlen : (L - 1).toNat - aN < w.length := by
    simp only [hw, List.length_take, List.length_drop]
    omega
  have hmem := mem_numberFrom ((aN : Int) + 1) w ((L - 1).toNat - aN) hwlen
  have hnum : (aN : Int) + 1 + (((L - 1).toNat - aN : Nat) : Int) = L := by omega
  have hget : w.getD ((L - 1).toNat - aN) "" = lines.getD (L - 1).toNat "" := by
    rw [hw, getD_take _ _ _ _ (by omega), getD_drop]
    congr 1
    omega
  rw [hnum, hget] at hmem
  exact hmem

/-- A concrete twenty-line file, `"line 1"` through `"line 20"`, the
fixture of the `extractCodeContext` unit tests. -/
def twentyLineFile : String :=
  String.intercalate "\n" ((List.range 20).map (fun i => "line " ++ toString (i + 1)))

set_option maxRecDepth 16384 in
/-- Claim C7: `extractCodeContext(text, L)` splits the text on newlines
and returns the 0-indexed slice `[max(0, L-11), min(lineCount, L+10))`
rendered as `"<1-indexed-number> | <text>"` joined with newlines (the
spec-worded algorithm, first conjunct); the window holds at most 21
lines, includes line `L` when in range, and is clipped rather than
padded; for L = 1 it is the first 11 lines; a 20-line file with center 11
yields all 20 lines `"1 | line 1"` through `"20 | line 20"`; the empty
file yields the single line `"1 | "`. -/
theorem c7_extractCodeContext_window (text : String) (L : Int) (hL : 1 ≤ L) :
    extractCodeContext text L = extractCodeContextSpec text L
    ∧ (extractCodeContextLines text L).length ≤ 21
    ∧ (L ≤ ((jsSplitLines text).length : Int) →
        (toString L ++ " | " ++ (jsSplitLines text).getD (L - 1).toNat "")
          ∈ extractCodeContextLines text L)
    ∧ extractCodeContextLines text 1 = numberFrom 1 ((jsSplitLines text).take 11)
    ∧ extractCodeContext twentyLineFile 11 =
        String.intercalate "\n"
          ((List.range 20).map (fun i => toString (i + 1) ++ " | line " ++ toString (i + 1)))
    ∧ extractCodeContext "" 1 = "1 | " := by
  refine ⟨?_, extractCodeContextLines_length_le text L hL,
    extractCodeContextLines_center_mem text L hL, ?_, by decide, by decide⟩
  · have hstop : (min ((jsSplitLines text).length : Int) (L + 10)).toNat
        = min (jsSplitLines text).length (L + 10).toNat := by omega
    unfold extractCodeContext extractCodeContextSpec
    rw [extractCodeContextLines_eq text L hL]
    simp only [hstop]
  · rw [extractCodeContextLines_eq text 1 (by norm_num)]
    norm_num
    congr 1
    rw [List.take_eq_take]
    omega

/-- Witness for C7 at the twenty-line fixture with center line 11. -/
theorem c7_witness :
    (1 : Int) ≤ 11
    ∧ (extractCodeContext twentyLineFile 11 = extractCodeContextSpec twentyLineFile 11
        ∧ (extractCodeContextLines twentyLineFile 11).length ≤ 21
        ∧ ((11 : Int) ≤ ((jsSplitLines twentyLineFile).length : Int) →
            (toString (11 : Int) ++ " | " ++ (jsSplitLines twentyLineFile).getD ((11 : Int) - 1).toNat "")
              ∈ extractCodeContextLines twentyLineFile 11)
        ∧ extractCodeContextLines twentyLineFile 1 = numberFrom 1 ((jsSplitLines twentyLineFile).take 11)
        ∧ extractCodeContext twentyLineFile 11 =
            String.intercalate "\n"
              ((List.range 20).map (fun i => toString (i + 1) ++ " | line " ++ toString (i + 1)))
        ∧ extractCodeContext "" 1 = "1 | ") :=
  ⟨by decide, c7_extractCodeContext_window twentyLineFile 11 (by decide)⟩

/-- Claim C10: `extractCodeContext` is total by construction (it is a
plain function on `String × Int`), and when the 1-indexed center line
exceeds the line count by more than 10 — `lineCount ≤ L - 11` — the
slice is empty and the result is the empty string rather than an error
or a window containing the referenced line. -/
theorem c10_extractCodeContext_beyond_range (text : String) (L : Int)
    (h : ((jsSplitLines text).length : Int) ≤ L - 11) :
    extractCodeContext text L = "" := by
  have hL : 1 ≤ L := by
    have : (0 : Int) ≤ ((jsSplitLines text).length : Int) := by positivity
    omega
  unfold extractCodeContext
  rw [extractCodeContextLines_eq text L hL]
  rw [List.drop_eq_nil_of_le (by omega : (jsSplitLines text).length ≤ (max 0 (L - 11)).toNat)]
  simp [numberFrom, String.intercalate]

/-- Witness for C10: a two-line file asked for a window around line 100. -/
theorem c10_witness :
    (((jsSplitLines "a\nb").length : Int) ≤ (100 : Int) - 11)
    ∧ extractCodeContext "a\nb" 100 = "" :=
  ⟨by decide, c10_extractCodeContext_beyond_range "a\nb" 100 (by decide)⟩

/-! ## Error Detector lemmas and claims -/

theorem mem_emitIfFresh (now : Int) (x : CapturedError) (st : ListenerState)
    (e : CapturedError) (h : e ∈ (emitIfFresh now x st).1) : e = x := by
  unfold emitIfFresh at h
  by_cases hb : (isDuplicate now (errorKey x.file x.line x.message) st).1
  · simp [hb] at h
  · simp [hb] at h
    exact h

/-- The key behaviour of `emitIfFresh` on a key absent from the pruned
ledger: the event fires and the key is recorded. -/
theorem emitIfFresh_fresh (now : Int) (x : CapturedError) (st : ListenerState)
    (h : (pruneLedger now st.recentErrors).any
      (fun kv => kv.1 == errorKey x.file x.line x.message) = false) :
    emitIfFresh now x st =
      ([x], ⟨(errorKey x.file x.line x.message, now) :: pruneLedger now st.recentErrors⟩) := by
  simp [emitIfFresh, isDuplicate, h]

/-- The key behaviour of `emitIfFresh` on a key present in the pruned
ledger: the event is suppressed. -/
theorem emitIfFresh_dup (now : Int) (x : CapturedError) (st : ListenerState)
    (h : (pruneLedger now st.recentErrors).any
      (fun kv => kv.1 == errorKey x.file x.line x.message) = true) :
    emitIfFresh now x st = ([], ⟨pruneLedger now st.recentErrors⟩) := by
  simp [emitIfFresh, isDuplicate, h]

/-- Every event emitted while classifying a diagnostic list is the
capture of one of its diagnostics. -/
theorem processDiags_sound (doc : Document) (now : Int) :
    ∀ (ds : List Diagnostic) (st : ListenerState) (e : CapturedError),
      e ∈ (processDiags doc now ds st).1 →
      ∃ d ∈ ds, e = captureFromDiagnostic doc now d := by
  intro ds
  induction ds with
  | nil =>
    intro st e h
    simp [processDiags] at h
  | cons d rest ih =>
    intro st e h
    simp only [processDiags, List.mem_append] at h
    cases h with
    | inl h1 =>
      exact ⟨d, by simp, mem_emitIfFresh now _ st e h1⟩
    | inr h2 =>
      obtain ⟨d2, hd2, he⟩ := ih _ e h2
      exact ⟨d2, by simp [hd2], he⟩

/-- Every event emitted for one notified file comes from a severity-error
diagnostic of an open, supported-language document at that path. -/
theorem processUri_sound (env : ListenerEnv) (now : Int) (u : String)
    (st : ListenerState) (e : CapturedError)
    (h : e ∈ (processUri env now u st).1) :
    ∃ doc, env.textDocuments.find? (fun d => d.path == u) = some doc
      ∧ supportedLanguages.contains doc.languageId = true
      ∧ ∃ d ∈ env.diagnosticsOf u, d.severity = 0
        ∧ e = captureFromDiagnostic doc now d := by
  unfold processUri at h
  cases hf : env.textDocuments.find? (fun d => d.path == u) with
  | none =>
    rw [hf] at h
    simp at h
  | some doc =>
    simp only [hf] at h
    by_cases hl : supportedLanguages.contains doc.languageId
    · rw [if_pos hl] at h
      obtain ⟨d, hd, he⟩ := processDiags_sound doc now _ st e h
      rw [List.mem_filter] at hd
      exact ⟨doc, rfl, hl, d, hd.1, by simpa using hd.2, he⟩
    · rw [if_neg hl] at h
      simp at h

/-- Soundness of a whole diagnostic-change notification. -/
theorem processUris_sound (env : ListenerEnv) (now : Int) :
    ∀ (uris : List String) (st : ListenerState) (e : CapturedError),
      e ∈ (processUris env now uris st).1 →
      ∃ u ∈ uris, ∃ doc, env.textDocuments.find? (fun d => d.path == u) = some doc
        ∧ supportedLanguages.contains doc.languageId = true
        ∧ ∃ d ∈ env.diagnosticsOf u, d.severity = 0
          ∧ e = captureFromDiagnostic doc now d := by
  intro uris
  induction uris with
  | nil =>
    intro st e h
    simp [processUris] at h
  | cons u rest ih =>
    intro st e h
    simp only [processUris, List.mem_append] at h
    cases h with
    | inl h1 =>
      obtain ⟨doc, hf, hl, d, hd, hs, he⟩ := processUri_sound env now u st e h1
      exact ⟨u, by simp, doc, hf, hl, d, hd, hs, he⟩
    | inr h2 =>
      obtain ⟨u2, hu2, doc, hf, hl, d, hd, hs, he⟩ := ih _ e h2
      exact ⟨u2, by simp [hu2], doc, hf, hl, d, hd, hs, he⟩

/-- Claim C8: the diagnostics path fires only for severity-error
diagnostics (warnings, information and hints never fire), only for open
documents whose language is one of javascript, typescript,
javascriptreact, typescriptreact (other languages and non-open files are
silently skipped), and every emitted `CapturedError` carries `line` equal
to the diagnostic's 0-indexed start line plus one, together with the
document's path and language, severity `"error"` and source
`"diagnostics"`. -/
theorem c8_diagnostics_path_classification (env : ListenerEnv) (now : Int)
    (uris : List String) (st : ListenerState) (e : CapturedError)
    (h : e ∈ (handleDiagnosticsChange env now uris st).1) :
    ∃ u ∈ uris, ∃ doc, env.textDocuments.find? (fun d => d.path == u) = some doc
      ∧ doc.languageId ∈ supportedLanguages
      ∧ ∃ d ∈ env.diagnosticsOf u, d.severity = 0
        ∧ e.line = d.startLine + 1
        ∧ e.message = d.message
        ∧ e.file = doc.path
        ∧ e.language = doc.languageId
        ∧ e.severity = "error"
        ∧ e.source = "diagnostics" := by
  obtain ⟨u, hu, doc, hf, hl, d, hd, hs, he⟩ := processUris_sound env now uris st e h
  subst he
  exact ⟨u, hu, doc, hf, List.mem_of_elem_eq_true hl, d, hd, hs,
    rfl, rfl, rfl, rfl, rfl, rfl⟩

/-- The open typescript document of the C8 witness. -/
def c8Doc : Document := ⟨"/src/app.ts", "typescript", "const x = 1;"⟩

/-- The C8 witness environment: one open document with one severity-error
diagnostic on its first line. -/
def c8Env : ListenerEnv :=
  { textDocuments := [c8Doc]
    diagnosticsOf := fun u => if u == "/src/app.ts" then [⟨0, "Missing semicolon", 0⟩] else []
    workspaceRoots := []
    fileExists := fun _ => false
    openDocument := fun _ => none }

/-- Witness for C8 at a concrete emission. -/
theorem c8_witness :
    ∃ u ∈ ["/src/app.ts"],
      ∃ doc, c8Env.textDocuments.find? (fun d => d.path == u) = some doc
        ∧ doc.languageId ∈ supportedLanguages
        ∧ ∃ d ∈ c8Env.diagnosticsOf u, d.severity = 0
          ∧ (captureFromDiagnostic c8Doc 0 ⟨0, "Missing semicolon", 0⟩).line = d.startLine + 1
          ∧ (captureFromDiagnostic c8Doc 0 ⟨0, "Missing semicolon", 0⟩).message = d.message
          ∧ (captureFromDiagnostic c8Doc 0 ⟨0, "Missing semicolon", 0⟩).file = doc.path
          ∧ (captureFromDiagnostic c8Doc 0 ⟨0, "Missing semicolon", 0⟩).language = doc.languageId
          ∧ (captureFromDiagnostic c8Doc 0 ⟨0, "Missing semicolon", 0⟩).severity = "error"
          ∧ (captureFromDiagnostic c8Doc 0 ⟨0, "Missing semicolon", 0⟩).source = "diagnostics" :=
  c8_diagnostics_path_classification c8Env 0 ["/src/app.ts"] initListenerState
    (captureFromDiagnostic c8Doc 0 ⟨0, "Missing semicolon", 0⟩) (by decide)

/-- Pipeline reduction: a diagnostic-change notification for a single
file whose open document is supported and carries exactly one
severity-error diagnostic reduces to one dedup-guarded emission. -/
theorem handleDiagnosticsChange_single (env : ListenerEnv) (now : Int)
    (file : String) (st : ListenerState) (doc : Document) (d : Diagnostic)
    (hfind : env.textDocuments.find? (fun dd => dd.path == file) = some doc)
    (hlang : supportedLanguages.contains doc.languageId = true)
    (hdiag : env.diagnosticsOf file = [d]) (hsev : d.severity = 0) :
    handleDiagnosticsChange env now [file] st =
      emitIfFresh now (captureFromDiagnostic doc now d) st := by
  unfold handleDiagnosticsChange processUris processUri
  simp only [hfind, hdiag, if_pos hlang]
  simp [List.filter, hsev, processDiags, processUris]

/-- The C2 environment: one open document at `file` in language `lang`
with one severity-error diagnostic `(ln, msg)`. -/
def singleDiagEnv (file lang text msg : String) (ln : Nat) : ListenerEnv :=
  { textDocuments := [⟨file, lang, text⟩]
    diagnosticsOf := fun u => if u == file then [⟨ln, msg, 0⟩] else []
    workspaceRoots := []
    fileExists := fun _ => false
    openDocument := fun _ => none }

/-- Claim C2: for a deduplication key (file, line, message), two
occurrences of the same key less than 2000 ms apart produce exactly one
"error detected" event (the first fires, the second is suppressed), and
two occurrences more than 2000 ms apart produce two events (one each). -/
theorem c2_dedup_cooldown (file lang text msg : String) (ln : Nat) (t1 t2 : Int)
    (hlang : supportedLanguages.contains lang = true) :
    (handleDiagnosticsChange (singleDiagEnv file lang text msg ln) t1 [file]
      initListenerState).1.length = 1
    ∧ (t2 - t1 < 2000 →
        (handleDiagnosticsChange (singleDiagEnv file lang text msg ln) t2 [file]
          (handleDiagnosticsChange (singleDiagEnv file lang text msg ln) t1 [file]
            initListenerState).2).1.length = 0)
    ∧ (2000 < t2 - t1 →
        (handleDiagnosticsChange (singleDiagEnv file lang text msg ln) t2 [file]
          (handleDiagnosticsChange (singleDiagEnv file lang text msg ln) t1 [file]
            initListenerState).2).1.length = 1) := by
  have hfind : (singleDiagEnv file lang text msg ln).textDocuments.find?
      (fun dd => dd.path == file) = some ⟨file, lang, text⟩ := by
    simp [singleDiagEnv, List.find?]
  have hdiag : (singleDiagEnv file lang text msg ln).diagnosticsOf file = [⟨ln, msg, 0⟩] := by
    simp [singleDiagEnv]
  have hpipe : ∀ (now : Int) (st : ListenerState),
      handleDiagnosticsChange (singleDiagEnv file lang text msg ln) now [file] st =
        emitIfFresh now (captureFromDiagnostic ⟨file, lang, text⟩ now ⟨ln, msg, 0⟩) st :=
    fun now st => handleDiagnosticsChange_single _ now file st _ _ hfind hlang hdiag rfl
  have hfirst : emitIfFresh t1 (captureFromDiagnostic ⟨file, lang, text⟩ t1 ⟨ln, msg, 0⟩)
      initListenerState
      = ([captureFromDiagnostic ⟨file, lang, text⟩ t1 ⟨ln, msg, 0⟩],
         ⟨[(errorKey file (ln + 1) msg, t1)]⟩) := rfl
  refine ⟨?_, ?_, ?_⟩
  · rw [hpipe, hfirst]
    rfl
  · intro hlt
    rw [hpipe, hpipe, hfirst]
    simp [emitIfFresh, isDuplicate, pruneLedger, DEDUP_WINDOW_MS,
      captureFromDiagnostic, errorKey, List.filter, hlt]
  · intro hgt
    have hnot : ¬ (t2 - t1 < 2000) := by omega
    rw [hpipe, hpipe, hfirst]
    simp [emitIfFresh, isDuplicate, pruneLedger, DEDUP_WINDOW_MS,
      captureFromDiagnostic, errorKey, List.filter, hnot]

/-- Witness for C2: the same diagnostic re-notified 1000 ms later is
suppressed, re-notified 2500 ms later it fires again. -/
theorem c2_witness :
    supportedLanguages.contains "typescript" = true
    ∧ (handleDiagnosticsChange (singleDiagEnv "/src/app.ts" "typescript" "x" "Type mismatch" 5) 0
        ["/src/app.ts"] initListenerState).1.length = 1
    ∧ ((1000 : Int) - 0 < 2000
        ∧ (handleDiagnosticsChange (singleDiagEnv "/src/app.ts" "typescript" "x" "Type mismatch" 5) 1000
            ["/src/app.ts"]
            (handleDiagnosticsChange (singleDiagEnv "/src/app.ts" "typescript" "x" "Type mismatch" 5) 0
              ["/src/app.ts"] initListenerState).2).1.length = 0)
    ∧ ((2000 : Int) < 2500 - 0
        ∧ (handleDiagnosticsChange (singleDiagEnv "/src/app.ts" "typescript" "x" "Type mismatch" 5) 2500
            ["/src/app.ts"]
            (handleDiagnosticsChange (singleDiagEnv "/src/app.ts" "typescript" "x" "Type mismatch" 5) 0
              ["/src/app.ts"] initListenerState).2).1.length = 1) :=
  ⟨by decide,
   (c2_dedup_cooldown "/src/app.ts" "typescript" "x" "Type mismatch" 5 0 1000 (by decide)).1,
   ⟨by decide,
    (c2_dedup_cooldown "/src/app.ts" "typescript" "x" "Type mismatch" 5 0 1000 (by decide)).2.1 (by decide)⟩,
   ⟨by decide,
    (c2_dedup_cooldown "/src/app.ts" "typescript" "x" "Type mismatch" 5 0 2500 (by decide)).2.2 (by decide)⟩⟩

/-- Claim C9 (amended): when the log-output path matches an error pattern
and finds a stack frame but cannot resolve its path to a real file, it
still emits a `CapturedError` — the event is not dropped for the
resolution failure, subject only to the same dedup ledger as every other
emission — with `file = "unknown"`, no code context, and source equal to
`"terminal"` (the `CapturedError` type of `types.ts` declares the channel
as `"diagnostics" | "terminal"`; the value `"log-output"` does not occur). -/
theorem c9_terminal_resolution_failure (env : ListenerEnv) (now : Int)
    (text : String) (st : ListenerState) (msg : String) (rest : List String)
    (raw : String) (ln : Nat)
    (hmatch : findErrorLine (jsSplitLines text) = some (msg, rest))
    (hframe : findFrame rest = some (raw, ln))
    (hres : resolveFile env raw = none)
    (hfresh : (pruneLedger now st.recentErrors).any
      (fun kv => kv.1 == errorKey "unknown" ln msg) = false) :
    (handleTerminalOutput env now text st).1 =
      [{ message := msg, file := "unknown", line := ln, language := "unknown"
         codeContext := "", severity := "error", source := "terminal"
         timestamp := now }] := by
  unfold handleTerminalOutput
  rw [hmatch]
  simp only [hframe, hres]
  rw [emitIfFresh_fresh now _ st hfresh]

/-- The C9 environment: no workspace roots and no existing files, so no
stack-frame path can resolve. -/
def c9Env : ListenerEnv :=
  { textDocuments := []
    diagnosticsOf := fun _ => []
    workspaceRoots := []
    fileExists := fun _ => false
    openDocument := fun _ => none }

/-- The C9 log chunk: a matched error line and a stack frame whose
relative path resolves to no real file. -/
def c9Text : String :=
  "TypeError: x is not a function\n    at module (src/index.js:2:10)"

/-- Counterexample to C9 as stated: at this concrete log chunk the
emitted event carries `file = "unknown"` and no code context, but its
`source` is `"terminal"`, not `"log-output"`. -/
theorem c9_counterexample :
    (handleTerminalOutput c9Env 0 c9Text initListenerState).1.map CapturedError.source
      = ["terminal"]
    ∧ (handleTerminalOutput c9Env 0 c9Text initListenerState).1.map CapturedError.source
      ≠ ["log-output"]
    ∧ (handleTerminalOutput c9Env 0 c9Text initListenerState).1.map CapturedError.file
      = ["unknown"]
    ∧ (handleTerminalOutput c9Env 0 c9Text initListenerState).1.map CapturedError.codeContext
      = [""] := by
  refine ⟨by decide, by decide, by decide, by decide⟩

/-- Witness for the amended C9 at the concrete log chunk. -/
theorem c9_witness :
    (handleTerminalOutput c9Env 7 c9Text initListenerState).1 =
      [{ message := "TypeError: x is not a function", file := "unknown", line := 2
         language := "unknown", codeContext := "", severity := "error"
         source := "terminal", timestamp := 7 }] :=
  c9_terminal_resolution_failure c9Env 7 c9Text initListenerState
    "TypeError: x is not a function" ["    at module (src/index.js:2:10)"]
    "src/index.js" 2 (by decide) (by decide) (by decide) (by decide)

/-! ## Fix/Diff Detector lemmas and claims -/

theorem sessionCleared_stopTracking (st : DiffEngineState) :
    sessionCleared (stopTracking st) := ⟨rfl, rfl, rfl⟩

/-- The shared debounce computation either leaves the state untouched and
emits nothing, or emits exactly one diff and clears the session. -/
theorem computeDiff_cases (env : DiffEnv) (st : DiffEngineState) :
    computeDiffForTrackedFile env st = ([], st)
    ∨ ∃ d, computeDiffForTrackedFile env st = ([d], stopTracking st) := by
  unfold computeDiffForTrackedFile
  cases hf : st.trackedFile with
  | none => simp
  | some f =>
    cases hb : st.beforeContent with
    | none => simp
    | some b =>
      cases hd : resolveDoc env f with
      | none => simp [hd]
      | some doc =>
        by_cases he : doc.text = b
        · simp [hd, he]
        · simp [hd, he]

theorem fireDiag_cases (env : DiffEnv) (st : DiffEngineState) :
    fireDiag env st = ([], { st with diagTimer := none })
    ∨ ∃ d, fireDiag env st = ([d], stopTracking st) := by
  unfold fireDiag
  rcases computeDiff_cases env { st with diagTimer := none } with h | ⟨d, h⟩
  · exact Or.inl h
  · exact Or.inr ⟨d, h⟩

theorem fireContent_cases (env : DiffEnv) (st : DiffEngineState) :
    fireContent env st = ([], { st with contentTimer := none })
    ∨ ∃ d, fireContent env st = ([d], stopTracking st) := by
  unfold fireContent
  rcases computeDiff_cases env { st with contentTimer := none } with h | ⟨d, h⟩
  · exact Or.inl h
  · exact Or.inr ⟨d, h⟩

/-- Firing the due timers emits at most one diff, and any emission leaves
the session cleared — the first successful path cancels the other pending
timer with the session. -/
theorem fireDue_single_shot (env : DiffEnv) (st : DiffEngineState) :
    (fireDue env st).1.length ≤ 1
    ∧ ((fireDue env st).1 ≠ [] → sessionCleared (fireDue env st).2) := by
  unfold fireDue
  cases hd : st.diagTimer with
  | none =>
    cases hc : st.contentTimer with
    | none => simp
    | some c =>
      by_cases h : c ≤ st.now
      · simp only [if_pos h]
        rcases fireContent_cases env st with h1 | ⟨d, h1⟩ <;>
          simp [h1, sessionCleared_stopTracking]
      · simp [if_neg h]
  | some d =>
    cases hc : st.contentTimer with
    | none =>
      by_cases h : d ≤ st.now
      · simp only [if_pos h]
        rcases fireDiag_cases env st with h1 | ⟨x, h1⟩ <;>
          simp [h1, sessionCleared_stopTracking]
      · simp [if_neg h]
    | some c =>
      by_cases h1 : d ≤ st.now
      · simp only [if_pos h1]
        by_cases h2 : c ≤ st.now ∧ c < d
        · simp only [if_pos h2]
          rcases fireContent_cases env st with h3 | ⟨x, h3⟩
          · simp only [h3]
            rcases fireDiag_cases env { st with contentTimer := none } with h4 | ⟨y, h4⟩
            · split <;> simp [h4, sessionCleared_stopTracking]
            · split <;> simp [h4, sessionCleared_stopTracking]
          · have hdue : diagDue (stopTracking st) = false := rfl
            simp [h3, hdue, sessionCleared_stopTracking]
        · simp only [if_neg h2]
          rcases fireDiag_cases env st with h3 | ⟨x, h3⟩
          · simp only [h3]
            rcases fireContent_cases env { st with diagTimer := none } with h4 | ⟨y, h4⟩
            · split <;> simp [h4, sessionCleared_stopTracking]
            · split <;> simp [h4, sessionCleared_stopTracking]
          · have hdue : contentDue (stopTracking st) = false := rfl
            simp [h3, hdue, sessionCleared_stopTracking]
      · simp only [if_neg h1]
        by_cases h2 : c ≤ st.now
        · simp only [if_pos h2]
          rcases fireContent_cases env st with h3 | ⟨x, h3⟩ <;>
            simp [h3, sessionCleared_stopTracking]
        · simp [if_neg h2]

/-- One step of the Fix/Diff Detector emits at most one diff, and any
step that emits leaves the session cleared: tracked file gone and both
debounce timers cancelled. -/
theorem step_single_shot (env : DiffEnv) (ev : DiffEvent) (st : DiffEngineState) :
    (step env ev st).1.length ≤ 1
    ∧ ((step env ev st).1 ≠ [] → sessionCleared (step env ev st).2) := by
  cases ev with
  | start file => simp [step]
  | stop => simp [step]
  | willSave doc =>
    by_cases h : st.trackedFile = some doc.path <;> simp [step, h]
  | didSave doc =>
    unfold step
    cases hf : st.trackedFile with
    | none => simp
    | some f =>
      cases hb : st.beforeContent with
      | none => simp
      | some b =>
        by_cases h1 : f = doc.path
        · by_cases h2 : doc.text = b
          · simp [h1, h2]
          · simp [h1, h2, sessionCleared_stopTracking]
        · simp [h1]
  | diagChange uris =>
    cases hf : st.trackedFile with
    | none => simp [step, hf]
    | some f =>
      simp only [step, hf]
      split_ifs <;> simp
  | contentChange doc changes =>
    cases hf : st.trackedFile with
    | none => simp [step, hf]
    | some f =>
      simp only [step, hf]
      split_ifs <;> simp
  | elapse dt => exact fireDue_single_shot env _

/-- A step of any event other than `startTracking` from a cleared state
emits nothing and stays cleared. -/
theorem step_cleared (env : DiffEnv) (ev : DiffEvent) (st : DiffEngineState)
    (hc : sessionCleared st) (hs : ev.isStart = false) :
    (step env ev st).1 = [] ∧ sessionCleared (step env ev st).2 := by
  obtain ⟨h1, h2, h3⟩ := hc
  cases ev with
  | start file => simp [DiffEvent.isStart] at hs
  | stop => exact ⟨rfl, sessionCleared_stopTracking st⟩
  | willSave doc => simp [step, h1, sessionCleared, h2, h3]
  | didSave doc => simp [step, h1, sessionCleared, h2, h3]
  | diagChange uris => simp [step, h1, sessionCleared, h2, h3]
  | contentChange doc changes => simp [step, h1, sessionCleared, h2, h3]
  | elapse dt => simp [step, fireDue, h1, h2, h3, sessionCleared]

/-- A whole trace without `startTracking` calls from a cleared state
emits nothing. -/
theorem run_cleared : ∀ (tr : List (DiffEnv × DiffEvent)) (st : DiffEngineState),
    sessionCleared st → (∀ p ∈ tr, p.2.isStart = false) →
    (run tr st).1 = [] ∧ sessionCleared (run tr st).2 := by
  intro tr
  induction tr with
  | nil =>
    intro st hc _
    exact ⟨rfl, hc⟩
  | cons p rest ih =>
    intro st hc hall
    obtain ⟨he, hc2⟩ := step_cleared p.1 p.2 st hc (hall p (by simp))
    obtain ⟨he2, hc3⟩ := ih _ hc2 (fun q hq => hall q (by simp [hq]))
    simp only [run]
    constructor
    · rw [he, he2]
      rfl
    · exact hc3

/-- The tracked document of the C1 scenario, before the fix. -/
def c1DocBefore : Document := ⟨"/src/app.ts", "typescript", "const x = 1;\n"⟩

/-- The tracked document of the C1 scenario, after the fix. -/
def c1DocAfter : Document := ⟨"/src/app.ts", "typescript", "const x = 2;\n"⟩

/-- The C1 scenario environment while the error is present. -/
def c1EnvA : DiffEnv :=
  { textDocuments := [c1DocBefore], openFile := fun _ => none
    errorCount := fun _ => 1 }

/-- The C1 scenario environment after the fix: content changed and the
diagnostics cleared. -/
def c1EnvB : DiffEnv :=
  { textDocuments := [c1DocAfter], openFile := fun _ => none
    errorCount := fun _ => 0 }

/-- The arbitration scenario of the specification: a buffer mutation
(1500 ms debounce scheduled), 600 ms later the diagnostics clear (500 ms
debounce scheduled), the diagnostics timer fires first at 1100 ms, and
both windows then elapse fully. -/
def c1ScenarioTrace : List (DiffEnv × DiffEvent) :=
  [(c1EnvA, .start "/src/app.ts"),
   (c1EnvA, .contentChange c1DocBefore 1),
   (c1EnvA, .elapse 600),
   (c1EnvB, .diagChange ["/src/app.ts"]),
   (c1EnvB, .elapse 500),
   (c1EnvB, .elapse 1000)]

/-- Claim C1: at most one diff event per tracking session across the
three detection paths.  First conjunct: any single step emits at most one
diff, and a step that emits leaves the session cleared — tracked file
gone, both debounce timers cancelled, so the other pending timer can
never act afterwards.  Second conjunct: from a cleared state, any trace
of further signals containing no `startTracking` emits nothing — no
later timer firing or save on the same session produces a second
emission.  Third conjunct: the specification's scenario (buffer mutation,
diagnostics clearing 600 ms later, both debounce windows elapsing) emits
exactly one diff in total. -/
theorem c1_at_most_one_emission_per_session :
    (∀ (env : DiffEnv) (ev : DiffEvent) (st : DiffEngineState),
      (step env ev st).1.length ≤ 1
      ∧ ((step env ev st).1 ≠ [] → sessionCleared (step env ev st).2))
    ∧ (∀ (tr : List (DiffEnv × DiffEvent)) (st : DiffEngineState),
        sessionCleared st → (∀ p ∈ tr, p.2.isStart = false) →
        (run tr st).1 = [])
    ∧ (run c1ScenarioTrace initDiffState).1.length = 1 := by
  refine ⟨step_single_shot, fun tr st hc hs => (run_cleared tr st hc hs).1, by decide⟩

/-- Witness for C1: a cleared state followed by start-free signals (a
timer window elapsing and a save) yields zero emissions, and a step that
does emit (a did-save with changed content) leaves the session cleared. -/
theorem c1_witness :
    sessionCleared initDiffState
    ∧ (∀ p ∈ ([(c1EnvB, DiffEvent.elapse 2000), (c1EnvB, DiffEvent.didSave c1DocAfter)] :
        List (DiffEnv × DiffEvent)), p.2.isStart = false)
    ∧ (run [(c1EnvB, DiffEvent.elapse 2000), (c1EnvB, DiffEvent.didSave c1DocAfter)]
        initDiffState).1 = []
    ∧ (step c1EnvB (DiffEvent.didSave c1DocAfter)
        (startTracking c1EnvA "/src/app.ts" initDiffState)).1 ≠ []
    ∧ sessionCleared (step c1EnvB (DiffEvent.didSave c1DocAfter)
        (startTracking c1EnvA "/src/app.ts" initDiffState)).2 :=
  ⟨⟨rfl, rfl, rfl⟩, by decide,
   c1_at_most_one_emission_per_session.2.1
     [(c1EnvB, DiffEvent.elapse 2000), (c1EnvB, DiffEvent.didSave c1DocAfter)]
     initDiffState ⟨rfl, rfl, rfl⟩ (by decide),
   by decide,
   (c1_at_most_one_emission_per_session.1 c1EnvB (DiffEvent.didSave c1DocAfter)
     (startTracking c1EnvA "/src/app.ts" initDiffState)).2 (by decide)⟩

/-- Claim C3: at most one tracking session is active process-wide (the
state holds a single optional tracked file).  Calling `startTracking(B)`
while a session for a different file `A` is active is a log-only no-op
that leaves the whole state — and in particular the session tracking `A`
— unchanged, while calling `startTracking(A)` with the already-tracked
file restarts the session with a fresh snapshot, a fresh initial error
count and reset timers. -/
theorem c3_start_tracking_no_op_or_restart (env : DiffEnv) (A B : String)
    (st : DiffEngineState) (hA : st.trackedFile = some A) :
    (A ≠ B → step env (.start B) st = ([], st))
    ∧ step env (.start A) st =
        ([], { st with beforeContent := resolveText env A
                       initialErrorCount := env.errorCount A
                       diagTimer := none, contentTimer := none })
    ∧ (A ≠ B → (step env (.start B) st).2.trackedFile = some A) := by
  have hB : ∀ C : String, A ≠ C → step env (.start C) st = ([], st) := by
    intro C hne
    simp [step, startTracking, hA, hne]
  exact ⟨hB B, by simp [step, startTracking, hA], fun hne => by rw [hB B hne, hA]⟩

/-- Witness for C3: tracking `/src/app.ts`, a start for `/src/other.ts`
is ignored and a re-start for the same file retakes the snapshot. -/
theorem c3_witness :
    (startTracking c1EnvA "/src/app.ts" initDiffState).trackedFile = some "/src/app.ts"
    ∧ ("/src/app.ts" : String) ≠ "/src/other.ts"
    ∧ step c1EnvB (DiffEvent.start "/src/other.ts")
        (startTracking c1EnvA "/src/app.ts" initDiffState)
      = ([], startTracking c1EnvA "/src/app.ts" initDiffState)
    ∧ step c1EnvB (DiffEvent.start "/src/app.ts")
        (startTracking c1EnvA "/src/app.ts" initDiffState)
      = ([], { startTracking c1EnvA "/src/app.ts" initDiffState with
                beforeContent := resolveText c1EnvB "/src/app.ts"
                initialErrorCount := c1EnvB.errorCount "/src/app.ts"
                diagTimer := none, contentTimer := none }) :=
  ⟨rfl, by decide,
   (c3_start_tracking_no_op_or_restart c1EnvB "/src/app.ts" "/src/other.ts"
     (startTracking c1EnvA "/src/app.ts" initDiffState) rfl).1 (by decide),
   (c3_start_tracking_no_op_or_restart c1EnvB "/src/app.ts" "/src/other.ts"
     (startTracking c1EnvA "/src/app.ts" initDiffState) rfl).2.1⟩

/-- Claim C6: on a did-save of the tracked file whose content differs
from the before-snapshot, the detector emits the computed diff in the
same step (no debounce) and stops tracking, so a subsequent save of the
same file does not re-emit. -/
theorem c6_save_emits_immediately_then_stops (env env2 : DiffEnv)
    (doc doc2 : Document) (st : DiffEngineState) (b : String)
    (hf : st.trackedFile = some doc.path) (hb : st.beforeContent = some b)
    (hne : doc.text ≠ b) :
    step env (.didSave doc) st
      = ([mkDiff doc.path doc.languageId b doc.text st.now], stopTracking st)
    ∧ (step env2 (.didSave doc2) (stopTracking st)).1 = [] := by
  constructor
  · simp [step, hf, hb, hne]
  · simp [step, stopTracking]

/-- Witness for C6: a save with changed content emits once and a second
save of the same file emits nothing. -/
theorem c6_witness :
    (startTracking c1EnvA "/src/app.ts" initDiffState).trackedFile = some c1DocAfter.path
    ∧ (startTracking c1EnvA "/src/app.ts" initDiffState).beforeContent = some "const x = 1;\n"
    ∧ c1DocAfter.text ≠ "const x = 1;\n"
    ∧ step c1EnvB (DiffEvent.didSave c1DocAfter)
        (startTracking c1EnvA "/src/app.ts" initDiffState)
      = ([mkDiff c1DocAfter.path c1DocAfter.languageId "const x = 1;\n" c1DocAfter.text
            (startTracking c1EnvA "/src/app.ts" initDiffState).now],
         stopTracking (startTracking c1EnvA "/src/app.ts" initDiffState))
    ∧ (step c1EnvB (DiffEvent.didSave c1DocAfter)
        (stopTracking (startTracking c1EnvA "/src/app.ts" initDiffState))).1 = [] :=
  ⟨rfl, rfl, by decide,
   (c6_save_emits_immediately_then_stops c1EnvB c1EnvB c1DocAfter c1DocAfter
     (startTracking c1EnvA "/src/app.ts" initDiffState) "const x = 1;\n"
     rfl rfl (by decide)).1,
   (c6_save_emits_immediately_then_stops c1EnvB c1EnvB c1DocAfter c1DocAfter
     (startTracking c1EnvA "/src/app.ts" initDiffState) "const x = 1;\n"
     rfl rfl (by decide)).2⟩

/-- Strengthened case analysis of the shared debounce computation: a
no-op, or exactly one emitted diff whose contents differ. -/
theorem computeDiff_cases2 (env : DiffEnv) (st : DiffEngineState) :
    computeDiffForTrackedFile env st = ([], st)
    ∨ ∃ d, computeDiffForTrackedFile env st = ([d], stopTracking st)
        ∧ d.beforeContent ≠ d.afterContent := by
  unfold computeDiffForTrackedFile
  cases hf : st.trackedFile with
  | none => simp
  | some f =>
    cases hb : st.beforeContent with
    | none => simp
    | some b =>
      cases hd : resolveDoc env f with
      | none => simp [hd]
      | some doc =>
        by_cases he : doc.text = b
        · simp [hd, he]
        · right
          refine ⟨mkDiff f doc.languageId b doc.text st.now, by simp [hd, he], ?_⟩
          exact fun h => he (by simpa [mkDiff] using h.symm)

theorem fireDiag_cases2 (env : DiffEnv) (st : DiffEngineState) :
    fireDiag env st = ([], { st with diagTimer := none })
    ∨ ∃ d, fireDiag env st = ([d], stopTracking st)
        ∧ d.beforeContent ≠ d.afterContent := by
  rcases computeDiff_cases2 env { st with diagTimer := none } with h | ⟨d, h, hd⟩
  · exact Or.inl h
  · exact Or.inr ⟨d, h, hd⟩

theorem fireContent_cases2 (env : DiffEnv) (st : DiffEngineState) :
    fireContent env st = ([], { st with contentTimer := none })
    ∨ ∃ d, fireContent env st = ([d], stopTracking st)
        ∧ d.beforeContent ≠ d.afterContent := by
  rcases computeDiff_cases2 env { st with contentTimer := none } with h | ⟨d, h, hd⟩
  · exact Or.inl h
  · exact Or.inr ⟨d, h, hd⟩

/-- Every diff a timer expiry emits has differing contents. -/
theorem fireDue_neq (env : DiffEnv) (st : DiffEngineState) :
    ∀ x ∈ (fireDue env st).1, x.beforeContent ≠ x.afterContent := by
  unfold fireDue
  cases hd : st.diagTimer with
  | none =>
    cases hc : st.contentTimer with
    | none => simp
    | some c =>
      by_cases h : c ≤ st.now
      · simp only [if_pos h]
        rcases fireContent_cases2 env st with h1 | ⟨y, h1, hy⟩
        · simp [h1]
        · simp only [h1]
          intro x hx
          simp at hx
          subst hx
          exact hy
      · simp [if_neg h]
  | some d =>
    cases hc : st.contentTimer with
    | none =>
      by_cases h : d ≤ st.now
      · simp only [if_pos h]
        rcases fireDiag_cases2 env st with h1 | ⟨y, h1, hy⟩
        · simp [h1]
        · simp only [h1]
          intro x hx
          simp at hx
          subst hx
          exact hy
      · simp [if_neg h]
    | some c =>
      by_cases h1 : d ≤ st.now
      · simp only [if_pos h1]
        by_cases h2 : c ≤ st.now ∧ c < d
        · simp only [if_pos h2]
          rcases fireContent_cases2 env st with h3 | ⟨y, h3, hy⟩
          · simp only [h3]
            rcases fireDiag_cases2 env { st with contentTimer := none } with h4 | ⟨z, h4, hz⟩
            · split <;> simp [h4]
            · split
              · simp only [h4, List.nil_append]
                intro x hx
                rw [List.mem_singleton] at hx
                subst hx
                exact hz
              · simp
          · have hdue : diagDue (stopTracking st) = false := rfl
            simp only [h3, hdue]
            intro x hx
            simp at hx
            subst hx
            exact hy
        · simp only [if_neg h2]
          rcases fireDiag_cases2 env st with h3 | ⟨y, h3, hy⟩
          · simp only [h3]
            rcases fireContent_cases2 env { st with diagTimer := none } with h4 | ⟨z, h4, hz⟩
            · split <;> simp [h4]
            · split
              · simp only [h4, List.nil_append]
                intro x hx
                rw [List.mem_singleton] at hx
                subst hx
                exact hz
              · simp
          · have hdue : contentDue (stopTracking st) = false := rfl
            simp only [h3, hdue]
            intro x hx
            simp at hx
            subst hx
            exact hy
      · simp only [if_neg h1]
        by_cases h2 : c ≤ st.now
        · simp only [if_pos h2]
          rcases fireContent_cases2 env st with h3 | ⟨y, h3, hy⟩
          · simp [h3]
          · simp only [h3]
            intro x hx
            simp at hx
            subst hx
            exact hy
        · simp [if_neg h2]

/-- Every diff one step emits has differing contents. -/
theorem step_neq (env : DiffEnv) (ev : DiffEvent) (st : DiffEngineState) :
    ∀ x ∈ (step env ev st).1, x.beforeContent ≠ x.afterContent := by
  cases ev with
  | start file => simp [step]
  | stop => simp [step]
  | willSave doc =>
    by_cases h : st.trackedFile = some doc.path <;> simp [step, h]
  | didSave doc =>
    unfold step
    cases hf : st.trackedFile with
    | none => simp
    | some f =>
      cases hb : st.beforeContent with
      | none => simp
      | some b =>
        by_cases h1 : f = doc.path
        · by_cases h2 : doc.text = b
          · simp [h1, h2]
          · simp only [h1, if_pos rfl, if_neg h2]
            intro x hx
            simp at hx
            subst hx
            exact fun h => h2 (by simpa [mkDiff] using h.symm)
        · simp [h1]
  | diagChange uris =>
    cases hf : st.trackedFile with
    | none => simp [step, hf]
    | some f =>
      simp only [step, hf]
      split_ifs <;> simp
  | contentChange doc changes =>
    cases hf : st.trackedFile with
    | none => simp [step, hf]
    | some f =>
      simp only [step, hf]
      split_ifs <;> simp
  | elapse dt => exact fireDue_neq env _

/-- Every diff a whole run emits has differing contents. -/
theorem run_neq : ∀ (tr : List (DiffEnv × DiffEvent)) (st : DiffEngineState),
    ∀ x ∈ (run tr st).1, x.beforeContent ≠ x.afterContent := by
  intro tr
  induction tr with
  | nil =>
    intro st x hx
    simp [run] at hx
  | cons p rest ih =>
    intro st x hx
    simp only [run, List.mem_append] at hx
    rcases hx with hx | hx
    · exact step_neq p.1 p.2 st x hx
    · exact ih _ x hx

/-- Claim C4: every emitted `CapturedDiff` satisfies
`beforeContent ≠ afterContent` (first conjunct, over whole runs); a
did-save whose content equals the before-snapshot emits nothing (second
conjunct); and a debounce computation that resolves content equal to the
before-snapshot emits nothing and leaves the session open (third
conjunct — diagnostics clearing without a text change). -/
theorem c4_emitted_diff_contents_differ :
    (∀ (tr : List (DiffEnv × DiffEvent)) (st : DiffEngineState),
      ∀ x ∈ (run tr st).1, x.beforeContent ≠ x.afterContent)
    ∧ (∀ (env : DiffEnv) (doc : Document) (st : DiffEngineState) (b : String),
        st.trackedFile = some doc.path → st.beforeContent = some b → doc.text = b →
        step env (.didSave doc) st = ([], st))
    ∧ (∀ (env : DiffEnv) (st : DiffEngineState) (f b : String),
        st.trackedFile = some f → st.beforeContent = some b →
        (resolveDoc env f).map Document.text = some b →
        computeDiffForTrackedFile env st = ([], st)) := by
  refine ⟨run_neq, ?_, ?_⟩
  · intro env doc st b hf hb he
    simp [step, hf, hb, he]
  · intro env st f b hf hb hres
    cases hd : resolveDoc env f with
    | none =>
      rw [hd] at hres
      simp at hres
    | some doc =>
      rw [hd] at hres
      simp at hres
      unfold computeDiffForTrackedFile
      simp [hf, hb, hd, hres]

/-- Witness for C4: the save-path emission of the C1 scenario has
differing contents, a same-content save is silent, and a debounce
computation over unchanged content is a no-op. -/
theorem c4_witness :
    (∀ x ∈ (run [(c1EnvA, DiffEvent.start "/src/app.ts"),
                  (c1EnvB, DiffEvent.didSave c1DocAfter)] initDiffState).1,
      x.beforeContent ≠ x.afterContent)
    ∧ ((startTracking c1EnvA "/src/app.ts" initDiffState).trackedFile = some c1DocBefore.path
        ∧ (startTracking c1EnvA "/src/app.ts" initDiffState).beforeContent = some "const x = 1;\n"
        ∧ c1DocBefore.text = "const x = 1;\n"
        ∧ step c1EnvA (DiffEvent.didSave c1DocBefore)
            (startTracking c1EnvA "/src/app.ts" initDiffState)
          = ([], startTracking c1EnvA "/src/app.ts" initDiffState))
    ∧ ((resolveDoc c1EnvA "/src/app.ts").map Document.text = some "const x = 1;\n"
        ∧ computeDiffForTrackedFile c1EnvA (startTracking c1EnvA "/src/app.ts" initDiffState)
          = ([], startTracking c1EnvA "/src/app.ts" initDiffState)) :=
  ⟨c4_emitted_diff_contents_differ.1
     [(c1EnvA, DiffEvent.start "/src/app.ts"), (c1EnvB, DiffEvent.didSave c1DocAfter)]
     initDiffState,
   ⟨rfl, rfl, rfl,
    c4_emitted_diff_contents_differ.2.1 c1EnvA c1DocBefore
      (startTracking c1EnvA "/src/app.ts" initDiffState) "const x = 1;\n" rfl rfl rfl⟩,
   ⟨rfl,
    c4_emitted_diff_contents_differ.2.2 c1EnvA
      (startTracking c1EnvA "/src/app.ts" initDiffState) "/src/app.ts" "const x = 1;\n"
      rfl rfl rfl⟩⟩

/-- The initial C5 environment: the tracked file is open with zero
severity-error diagnostics. -/
def c5Env0 : DiffEnv :=
  { textDocuments := [c1DocBefore], openFile := fun _ => none
    errorCount := fun _ => 0 }

/-- The C5 state after `startTracking` under `c5Env0`:
`initialErrorCount = 0`. -/
def c5St0 : DiffEngineState := startTracking c5Env0 "/src/app.ts" initDiffState

/-- The C5 decrease scenario: three initial errors, then one remaining
with the buffer modified. -/
def c5Env3 : DiffEnv :=
  { textDocuments := [c1DocBefore], openFile := fun _ => none
    errorCount := fun _ => 3 }

/-- One severity error left on the modified buffer. -/
def c5Env1 : DiffEnv :=
  { textDocuments := [c1DocAfter], openFile := fun _ => none
    errorCount := fun _ => 1 }

/-- Two severity errors, unchanged buffer. -/
def c5Env2 : DiffEnv :=
  { textDocuments := [c1DocBefore], openFile := fun _ => none
    errorCount := fun _ => 2 }

/-- Counterexample to C5 as stated: with zero initial errors and zero new
errors — a count that is not strictly lower than `initialIssueCount` —
the diagnostics path still schedules the 500 ms debounce (the in-repo
tests "debounce timer is set when errors clear on tracked file" and
"multiple diagnostic changes within debounce window only fire once" pin
this), and with modified content the debounce then emits a diff. -/
theorem c5_counterexample :
    c5St0.initialErrorCount = 0
    ∧ c5Env0.errorCount "/src/app.ts" = 0
    ∧ ¬ (c5Env0.errorCount "/src/app.ts" < c5St0.initialErrorCount)
    ∧ (step c5Env0 (.diagChange ["/src/app.ts"]) c5St0).2.diagTimer = some 500
    ∧ (run [(c5Env0, .start "/src/app.ts"),
            (c5Env0, .diagChange ["/src/app.ts"]),
            ({ c5Env0 with textDocuments := [c1DocAfter] }, .elapse 500)]
        initDiffState).1.length = 1 := by
  refine ⟨rfl, rfl, by decide, by decide, by decide⟩

/-- Claim C5 (amended): the diagnostics path schedules the 500 ms
debounce if and only if the new severity-error count on the tracked file
is zero or strictly lower than `initialIssueCount` (the zero case matters
only when `initialIssueCount` is itself zero, where the stated
strictly-lower condition fails but the code still schedules); scheduling
alone emits nothing; a decrease that does not reach zero (3 errors to 1)
still fires a diff after the debounce when content differs; an unchanged
positive count (2 errors to 2) produces no emission. -/
theorem c5_diag_scheduling_condition (env : DiffEnv) (uris : List String)
    (st : DiffEngineState) (f : String)
    (hf : st.trackedFile = some f) (hmem : uris.contains f = true) :
    ((env.errorCount f = 0 ∨ env.errorCount f < st.initialErrorCount) →
        step env (.diagChange uris) st
          = ([], { st with diagTimer := some (st.now + 500) }))
    ∧ (¬ (env.errorCount f = 0 ∨ env.errorCount f < st.initialErrorCount) →
        step env (.diagChange uris) st = ([], st))
    ∧ (step env (.diagChange uris) st).1 = []
    ∧ (run [(c5Env3, .start "/src/app.ts"),
            (c5Env1, .diagChange ["/src/app.ts"]),
            (c5Env1, .elapse 500)] initDiffState).1.length = 1
    ∧ (run [(c5Env2, .start "/src/app.ts"),
            (c5Env2, .diagChange ["/src/app.ts"]),
            (c5Env2, .elapse 2000)] initDiffState).1.length = 0 := by
  have hm : f ∈ uris := List.mem_of_elem_eq_true hmem
  refine ⟨?_, ?_, ?_, by decide, by decide⟩
  · intro h
    simp [step, hf, hm, h]
  · intro h
    simp [step, hf, hm, h]
  · cases hft : st.trackedFile with
    | none => simp [step, hft]
    | some g =>
      simp only [step, hft]
      split_ifs <;> rfl

/-- Witness for the amended C5: scheduling on a 3-to-1 decrease,
no scheduling on an unchanged positive count. -/
theorem c5_witness :
    (startTracking c5Env3 "/src/app.ts" initDiffState).trackedFile = some "/src/app.ts"
    ∧ (["/src/app.ts"] : List String).contains "/src/app.ts" = true
    ∧ (c5Env1.errorCount "/src/app.ts" = 0
        ∨ c5Env1.errorCount "/src/app.ts"
          < (startTracking c5Env3 "/src/app.ts" initDiffState).initialErrorCount)
    ∧ step c5Env1 (.diagChange ["/src/app.ts"])
        (startTracking c5Env3 "/src/app.ts" initDiffState)
      = ([], { startTracking c5Env3 "/src/app.ts" initDiffState with
                diagTimer := some ((startTracking c5Env3 "/src/app.ts" initDiffState).now + 500) })
    ∧ ¬ (c5Env2.errorCount "/src/app.ts" = 0
        ∨ c5Env2.errorCount "/src/app.ts"
          < (startTracking c5Env2 "/src/app.ts" initDiffState).initialErrorCount)
    ∧ step c5Env2 (.diagChange ["/src/app.ts"])
        (startTracking c5Env2 "/src/app.ts" initDiffState)
      = ([], startTracking c5Env2 "/src/app.ts" initDiffState) :=
  ⟨rfl, by decide, by decide,
   (c5_diag_scheduling_condition c5Env1 ["/src/app.ts"]
     (startTracking c5Env3 "/src/app.ts" initDiffState) "/src/app.ts" rfl (by decide)).1
     (by decide),
   by decide,
   (c5_diag_scheduling_condition c5Env2 ["/src/app.ts"]
     (startTracking c5Env2 "/src/app.ts" initDiffState) "/src/app.ts" rfl (by decide)).2.1
     (by decide)⟩

end FlowFixer
